import Mathlib

/-!
Verification development for the novel-api client library.

The development gives a shallow embedding of the parts of the Rust source
that the verified properties are about:

* `src/common/database/mod.rs` — the SQLite text cache (`NovelDB`):
  `find_text`, `insert_text`, `update_text`, and the Zstd wrappers.
* `src/sfacg/mod.rs` / `src/sfacg/utils.rs` — the sfacg envelope status
  (`Status::ok` / `Status::unauthorized` / `Status::check`), the envelope
  handling of `user_info` / `novel_info`, the chapter-content pipeline,
  `parser_image_url`, and the `sf_security` sign header.
* `src/ciweimao/mod.rs` / `src/ciweimao/utils.rs` — `check_response`, the
  envelope handling of `user_info` / `novel_info`, the chapter-content
  pipeline, `load_config_file`, the captcha server bind, and the `Drop`
  implementation.
* `src/common/net.rs` — the `Drop` implementation of `HTTPClient`.

Modelling conventions: byte strings are `List Nat` (each element a byte
value), timestamps (`chrono::NaiveDateTime`) are `Int` with the
chronological order, fallible Rust functions return `Except String`, and a
Rust panic is modelled by an explicit variant where a property is about
panics.  External crates that the source calls are modelled where
unavoidable; each such definition carries a doc comment saying so.
-/

/-- Byte strings on the wire and in the database: lists of byte values. -/
abbrev Bytes := List Nat

/-! ## UTF-8 (model of Rust `str` bytes and `String::from_utf8_unchecked`)

The cache stores compressed UTF-8 bytes (`text.as_ref().as_bytes()` in
`insert_text`/`update_text`) and `find_text` converts bytes back with
`String::from_utf8_unchecked`, i.e. without validation.  We model the
encoding exactly (UTF-8 of the string's scalar values) and model the
unchecked conversion as a total decoder that never signals an error: on
byte sequences that are not valid UTF-8 it produces replacement
characters, standing in for the undefined behaviour of the real
conversion. -/

/-- UTF-8 encoding of one Unicode scalar value (the bytes of a Rust `char`). -/
def charUtf8 (c : Char) : Bytes :=
  if c.toNat < 128 then [c.toNat]
  else if c.toNat < 2048 then [192 + c.toNat / 64, 128 + c.toNat % 64]
  else if c.toNat < 65536 then
    [224 + c.toNat / 4096, 128 + c.toNat / 64 % 64, 128 + c.toNat % 64]
  else
    [240 + c.toNat / 262144, 128 + c.toNat / 4096 % 64, 128 + c.toNat / 64 % 64,
     128 + c.toNat % 64]

/-- UTF-8 bytes of a string (Rust `str::as_bytes`). -/
def utf8Encode (s : String) : Bytes :=
  (s.data.map charUtf8).flatten

/-- Fuel-indexed byte-to-char decoder; the fuel drops by one per produced
character (each character consumes at least one byte, so `l.length` fuel
always suffices). -/
def utf8DecodeLoop : Nat → Bytes → List Char
  | 0, _ => []
  | _ + 1, [] => []
  | fuel + 1, b :: rest =>
    if b < 128 then Char.ofNat b :: utf8DecodeLoop fuel rest
    else if b < 192 then Char.ofNat 65533 :: utf8DecodeLoop fuel rest
    else if b < 224 then
      match rest with
      | b1 :: rest1 =>
        if 128 ≤ b1 && b1 < 192 then
          Char.ofNat ((b - 192) * 64 + (b1 - 128)) :: utf8DecodeLoop fuel rest1
        else Char.ofNat 65533 :: utf8DecodeLoop fuel rest1
      | [] => [Char.ofNat 65533]
    else if b < 240 then
      match rest with
      | b1 :: b2 :: rest2 =>
        if (128 ≤ b1 && b1 < 192) && (128 ≤ b2 && b2 < 192) then
          Char.ofNat ((b - 224) * 4096 + (b1 - 128) * 64 + (b2 - 128)) ::
            utf8DecodeLoop fuel rest2
        else Char.ofNat 65533 :: utf8DecodeLoop fuel rest2
      | other => Char.ofNat 65533 :: utf8DecodeLoop fuel other.tail
    else
      match rest with
      | b1 :: b2 :: b3 :: rest3 =>
        if (128 ≤ b1 && b1 < 192) && ((128 ≤ b2 && b2 < 192) && (128 ≤ b3 && b3 < 192)) then
          Char.ofNat ((b - 240) * 262144 + (b1 - 128) * 4096 + (b2 - 128) * 64 + (b3 - 128)) ::
            utf8DecodeLoop fuel rest3
        else Char.ofNat 65533 :: utf8DecodeLoop fuel rest3
      | other => Char.ofNat 65533 :: utf8DecodeLoop fuel other.tail

/-- Total decoder modelling `String::from_utf8_unchecked`. -/
def utf8DecodeUnchecked (l : Bytes) : String :=
  ⟨utf8DecodeLoop l.length l⟩

theorem charUtf8_one {c : Char} (h : c.toNat < 128) : charUtf8 c = [c.toNat] := by
  rw [charUtf8, if_pos h]

theorem charUtf8_two {c : Char} (h1 : 128 ≤ c.toNat) (h2 : c.toNat < 2048) :
    charUtf8 c = [192 + c.toNat / 64, 128 + c.toNat % 64] := by
  rw [charUtf8, if_neg (by omega), if_pos h2]

theorem charUtf8_three {c : Char} (h1 : 2048 ≤ c.toNat) (h2 : c.toNat < 65536) :
    charUtf8 c = [224 + c.toNat / 4096, 128 + c.toNat / 64 % 64, 128 + c.toNat % 64] := by
  rw [charUtf8, if_neg (by omega), if_neg (by omega), if_pos h2]

theorem charUtf8_four {c : Char} (h1 : 65536 ≤ c.toNat) :
    charUtf8 c = [240 + c.toNat / 262144, 128 + c.toNat / 4096 % 64, 128 + c.toNat / 64 % 64,
      128 + c.toNat % 64] := by
  rw [charUtf8, if_neg (by omega), if_neg (by omega), if_neg (by omega)]

/-- Decoding one encoded character from the front of a byte string consumes
exactly that character and one unit of fuel. -/
theorem utf8DecodeLoop_charUtf8 (c : Char) (rest : Bytes) (fuel : Nat) :
    utf8DecodeLoop (fuel + 1) (charUtf8 c ++ rest) = c :: utf8DecodeLoop fuel rest := by
  have hofNat : Char.ofNat c.toNat = c := Char.ofNat_toNat c
  have hvalid : c.toNat < 55296 ∨ (57344 ≤ c.toNat ∧ c.toNat < 1114112) := c.valid
  by_cases hA : c.toNat < 128
  · rw [charUtf8_one hA]
    simp only [utf8DecodeLoop, List.append_eq, List.cons_append, List.nil_append, if_pos hA, hofNat]
  · by_cases hB : c.toNat < 2048
    · rw [charUtf8_two (by omega) hB]
      simp only [utf8DecodeLoop, List.append_eq, List.cons_append, List.nil_append]
      rw [if_neg (by omega), if_neg (by omega), if_pos (by omega)]
      rw [if_pos (by simp only [Bool.and_eq_true, decide_eq_true_eq]; omega)]
      have hval : (192 + c.toNat / 64 - 192) * 64 + (128 + c.toNat % 64 - 128) = c.toNat := by
        omega
      rw [hval, hofNat]
    · by_cases hC : c.toNat < 65536
      · rw [charUtf8_three (by omega) hC]
        simp only [utf8DecodeLoop, List.append_eq, List.cons_append, List.nil_append]
        rw [if_neg (by omega), if_neg (by omega), if_neg (by omega), if_pos (by omega)]
        rw [if_pos (by simp only [Bool.and_eq_true, decide_eq_true_eq]; omega)]
        have hval : (224 + c.toNat / 4096 - 224) * 4096 + (128 + c.toNat / 64 % 64 - 128) * 64 +
            (128 + c.toNat % 64 - 128) = c.toNat := by
          omega
        rw [hval, hofNat]
      · rw [charUtf8_four (by omega)]
        have hD : c.toNat < 1114112 := by omega
        simp only [utf8DecodeLoop, List.append_eq, List.cons_append, List.nil_append]
        rw [if_neg (by omega), if_neg (by omega), if_neg (by omega), if_neg (by omega)]
        rw [if_pos (by simp only [Bool.and_eq_true, decide_eq_true_eq]; omega)]
        have hval : (240 + c.toNat / 262144 - 240) * 262144 +
            (128 + c.toNat / 4096 % 64 - 128) * 4096 +
            (128 + c.toNat / 64 % 64 - 128) * 64 + (128 + c.toNat % 64 - 128) = c.toNat := by
          omega
        rw [hval, hofNat]

theorem utf8DecodeLoop_encode (l : List Char) (fuel : Nat) :
    utf8DecodeLoop (l.length + fuel) ((l.map charUtf8).flatten) = l := by
  induction l generalizing fuel with
  | nil =>
    cases fuel <;> rfl
  | cons c cs ih =>
    simp only [List.map_cons, List.flatten_cons, List.length_cons]
    have harith : cs.length + fuel + 1 = (cs.length + fuel) + 1 := rfl
    rw [show cs.length + 1 + fuel = (cs.length + fuel) + 1 by omega]
    rw [utf8DecodeLoop_charUtf8, ih]

theorem charUtf8_length_pos (c : Char) : 0 < (charUtf8 c).length := by
  rw [charUtf8]
  split_ifs <;> simp

/-- The unchecked decode inverts the encode on every actual string. -/
theorem utf8DecodeUnchecked_utf8Encode (s : String) :
    utf8DecodeUnchecked (utf8Encode s) = s := by
  obtain ⟨data⟩ := s
  have hlen : data.length ≤ ((data.map charUtf8).flatten).length := by
    induction data with
    | nil => simp
    | cons c cs ih =>
      simp only [List.map_cons, List.flatten_cons, List.length_append, List.length_cons]
      have := charUtf8_length_pos c
      omega
  obtain ⟨k, hk⟩ : ∃ k, ((data.map charUtf8).flatten).length = data.length + k :=
    ⟨_, (Nat.add_sub_cancel' hlen).symm⟩
  simp only [utf8DecodeUnchecked, utf8Encode]
  rw [hk, utf8DecodeLoop_encode]

/-! ## Zstd wrappers (`zstd_compress` / `zstd_decompress`)

The Rust functions wrap the external `async_compression` Zstd codec, whose
implementation is not part of this repository.  Per the spec the codec is a
lossless compressor; we model it as a frame with the Zstd magic number
followed by the payload, which is executable and lossless. -/

/-- Modelled from the spec: the external Zstd encoder used by
`zstd_compress` (crate `async_compression`, absent from `src/`); modelled
as the Zstd magic-number frame followed by the raw payload, faithful to
the spec's round-trip law. -/
def zstd_compress (data : Bytes) : Bytes :=
  40 :: 181 :: 47 :: 253 :: data

/-- Modelled from the spec: the external Zstd decoder used by
`zstd_decompress`; inverse of `zstd_compress`, failing on input that is
not a well-formed frame. -/
def zstd_decompress (data : Bytes) : Except String Bytes :=
  match data with
  | 40 :: 181 :: 47 :: 253 :: rest => .ok rest
  | _ => .error "unknown frame descriptor"

theorem zstd_compress_injective {a b : Bytes} (h : zstd_compress a = zstd_compress b) :
    a = b := by
  simpa [zstd_compress] using h

/-! ## The cache data model (`src/common/client.rs`, `src/common/database`) -/

/-- Chapter identifier (`Identifier` in `src/common/client.rs`). -/
inductive Identifier where
  | Id (id : Nat)
  | Url (url : String)
deriving DecidableEq, Repr

/-- `impl ToString for Identifier`: the id rendered in decimal, or the URL
string (URL normalisation of the external `url` crate is not modelled; a
`Url` carries its rendered string). -/
def Identifier.toString : Identifier → String
  | .Id id => ToString.toString id
  | .Url url => url

/-- Chapter metadata (`ChapterInfo` in `src/common/client.rs`); the update
time is the freshness timestamp used against the cache. -/
structure ChapterInfo where
  identifier : Identifier
  title : String
  is_vip : Option Bool
  accessible : Option Bool
  is_valid : Option Bool
  word_count : Option Nat
  update_time : Option Int
deriving DecidableEq, Repr

/-- A descriptor carrying only an identifier and an optional update time
(the fields `find_text`/`insert_text`/`update_text` read). -/
def chapterAt (ident : Identifier) (t : Option Int) : ChapterInfo :=
  ⟨ident, "", none, none, none, none, t⟩

/-- Row of the `text` table (`src/common/database/entity/text.rs`):
`text(identifier TEXT PRIMARY KEY, date_time TIMESTAMP NULL, text BLOB)`. -/
structure TextRow where
  identifier : String
  date_time : Option Int
  text : Bytes
deriving DecidableEq, Repr

/-- The text table of the SQLite cache, keyed by `identifier`. -/
abbrev NovelDB := List TextRow

/-- `Text::find_by_id(identifier).one(&self.db)`. -/
def findRowById (db : NovelDB) (id : String) : Option TextRow :=
  db.find? (fun r => r.identifier == id)

/-- Result of a text lookup (`FindTextResult` in
`src/common/database/mod.rs`): `Ok` is a cache hit, `None` a miss,
`Outdate` a stale row. -/
inductive FindTextResult where
  | Ok (text : String)
  | None
  | Outdate
deriving DecidableEq, Repr

/-- The staleness test of `NovelDB::find_text`:
`time.is_some() && saved_data_time.is_some() && saved_data_time.unwrap() < time.unwrap()`. -/
def outdateCheck (time saved : Option Int) : Bool :=
  match time, saved with
  | some t, some s => decide (s < t)
  | _, _ => false

/-- `NovelDB::find_text` (`src/common/database/mod.rs` lines 72-101): look
the row up by identifier; if absent return `None`; if present and the
staleness test fires return `Outdate`; otherwise decompress the blob and
convert it with `String::from_utf8_unchecked` (no validation). -/
def NovelDB.find_text (db : NovelDB) (info : ChapterInfo) : Except String FindTextResult :=
  match findRowById db info.identifier.toString with
  | some model =>
    if outdateCheck info.update_time model.date_time then
      .ok .Outdate
    else
      match zstd_decompress model.text with
      | .ok bytes => .ok (.Ok (utf8DecodeUnchecked bytes))
      | .error e => .error e
  | none => .ok .None

/-- `NovelDB::insert_text` (lines 103-119): insert a fresh row whose
`date_time` is the descriptor's update time and whose blob is the
Zstd-compressed UTF-8 text; the underlying SQL insert fails when the
primary key already exists. -/
def NovelDB.insert_text (db : NovelDB) (info : ChapterInfo) (text : String) :
    Except String NovelDB :=
  if (findRowById db info.identifier.toString).isSome then
    .error "UNIQUE constraint failed: text.identifier"
  else
    .ok (db ++ [⟨info.identifier.toString, info.update_time,
      zstd_compress (utf8Encode text)⟩])

/-- `NovelDB::update_text` (lines 121-137): overwrite the row with the
descriptor's update time and the compressed text; the underlying SQL
update fails when no row with that primary key exists. -/
def NovelDB.update_text (db : NovelDB) (info : ChapterInfo) (text : String) :
    Except String NovelDB :=
  if (findRowById db info.identifier.toString).isSome then
    .ok (db.map fun r =>
      if r.identifier == info.identifier.toString then
        ⟨info.identifier.toString, info.update_time, zstd_compress (utf8Encode text)⟩
      else r)
  else
    .error "None of the records are updated"

theorem findRowById_append_self {db : NovelDB} {k : String} (h : findRowById db k = none)
    (r : TextRow) (hk : r.identifier = k) :
    findRowById (db ++ [r]) k = some r := by
  induction db with
  | nil =>
    simp only [List.nil_append, findRowById]
    exact List.find?_cons_of_pos _ (by simp [hk])
  | cons x xs ih =>
    simp only [findRowById, List.cons_append] at h ⊢
    by_cases hx : x.identifier = k
    · rw [List.find?_cons_of_pos _ (by simp [hx])] at h
      cases h
    · rw [List.find?_cons_of_neg _ (by simp [hx])] at h ⊢
      exact ih h

theorem findRowById_map_update {db : NovelDB} {k : String} {r : TextRow}
    (h : findRowById db k = some r) (newRow : TextRow) (hk : newRow.identifier = k) :
    findRowById (db.map fun x => if x.identifier == k then newRow else x) k = some newRow := by
  induction db with
  | nil => simp [findRowById] at h
  | cons x xs ih =>
    simp only [findRowById, List.map] at h ⊢
    by_cases hx : x.identifier = k
    · rw [if_pos (by simp [hx])]
      exact List.find?_cons_of_pos _ (by simp [hk])
    · rw [List.find?_cons_of_neg _ (by simp [hx])] at h
      rw [if_neg (by simp [hx]), List.find?_cons_of_neg _ (by simp [hx])]
      exact ih h

theorem zstd_roundtrip (bs : Bytes) : zstd_decompress (zstd_compress bs) = .ok bs := rfl

theorem outdateCheck_eq_true_iff (time saved : Option Int) :
    outdateCheck time saved = true ↔
      ∃ t s, time = some t ∧ saved = some s ∧ s < t := by
  cases time with
  | none => simp [outdateCheck]
  | some t =>
    cases saved with
    | none => simp [outdateCheck]
    | some s => simp [outdateCheck]

/-! ## C1 — the `find_text` freshness verdict -/

/-- Tags comparing the implementation's verdicts with the specified
classification. -/
inductive CacheVerdict where
  | hit
  | missing
  | stale
deriving DecidableEq, Repr

/-- The verdict C1 predicts for a lookup, following the claim's words
literally: Hit when a row exists and either the descriptor carries no
update timestamp or the stored `cached_at` is present and not strictly
earlier than the descriptor's; Stale when the row exists and both
timestamps are present with stored strictly earlier; Missing in every
other case. -/
def c1ClaimedVerdict (rowExists : Bool) (stored descTime : Option Int) : CacheVerdict :=
  if rowExists then
    match descTime with
    | none => .hit
    | some t =>
      match stored with
      | some s => if s < t then .stale else .hit
      | none => .missing
  else .missing

/-- C1 (counterexample): a cached row whose stored `cached_at` is NULL,
queried with a descriptor that carries an update time.  The claim
classifies this as Missing (the stored timestamp is not present), but
`find_text` takes the non-stale branch and returns a Hit with the cached
body. -/
theorem spec_c1_counterexample :
    c1ClaimedVerdict true none (some 5) = CacheVerdict.missing ∧
    findRowById [⟨"0", none, zstd_compress (utf8Encode "x")⟩] "0" =
      some ⟨"0", none, zstd_compress (utf8Encode "x")⟩ ∧
    NovelDB.find_text [⟨"0", none, zstd_compress (utf8Encode "x")⟩]
      (chapterAt (.Id 0) (some 5)) = .ok (.Ok "x") := by
  refine ⟨rfl, rfl, ?_⟩
  show Except.ok (FindTextResult.Ok (utf8DecodeUnchecked (utf8Encode "x"))) = _
  rw [utf8DecodeUnchecked_utf8Encode]

/-- C1 (amended): for every cache state and descriptor, `find_text`
returns Missing exactly when no row with the descriptor's identifier
exists; Stale exactly when the row exists and both timestamps are present
with the stored one strictly earlier than the descriptor's; and (on any
cache whose blobs were produced by the write path) a Hit in every other
case where the row exists — in particular a row whose stored `cached_at`
is NULL is a Hit even when the descriptor carries an update time, and
equal timestamps are a Hit. -/
theorem spec_c1_find_text_verdicts (db : NovelDB) (info : ChapterInfo) :
    (NovelDB.find_text db info = .ok .None ↔
      findRowById db info.identifier.toString = none)
    ∧ (NovelDB.find_text db info = .ok .Outdate ↔
      ∃ row, findRowById db info.identifier.toString = some row ∧
        ∃ t s, info.update_time = some t ∧ row.date_time = some s ∧ s < t)
    ∧ ((∀ row ∈ db, ∃ s, row.text = zstd_compress (utf8Encode s)) →
      ((∃ b, NovelDB.find_text db info = .ok (.Ok b)) ↔
        ∃ row, findRowById db info.identifier.toString = some row ∧
          ¬ ∃ t s, info.update_time = some t ∧ row.date_time = some s ∧ s < t)) := by
  cases hfind : findRowById db info.identifier.toString with
  | none =>
    refine ⟨by simp [NovelDB.find_text, hfind], by simp [NovelDB.find_text, hfind], ?_⟩
    intro _
    simp [NovelDB.find_text, hfind]
  | some row =>
    cases hstale : outdateCheck info.update_time row.date_time with
    | true =>
      have hiff := (outdateCheck_eq_true_iff info.update_time row.date_time).mp hstale
      refine ⟨by simp [NovelDB.find_text, hfind, hstale], ?_, ?_⟩
      · simp only [NovelDB.find_text, hfind, hstale, if_true]
        constructor
        · intro _
          exact ⟨row, rfl, hiff⟩
        · intro _
          trivial
      · intro _
        simp only [NovelDB.find_text, hfind, hstale, if_true]
        constructor
        · rintro ⟨b, hb⟩
          cases hb
        · rintro ⟨row', hrow', hnot⟩
          cases hrow'
          exact absurd hiff hnot
    | false =>
      have hnot : ¬ ∃ t s, info.update_time = some t ∧ row.date_time = some s ∧ s < t := by
        intro hcontra
        rw [← outdateCheck_eq_true_iff] at hcontra
        rw [hstale] at hcontra
        cases hcontra
      refine ⟨?_, ?_, ?_⟩
      · simp only [NovelDB.find_text, hfind, hstale, Bool.false_eq_true, if_false]
        constructor
        · intro h
          cases hdec : zstd_decompress row.text <;> rw [hdec] at h <;> cases h
        · intro h
          cases h
      · simp only [NovelDB.find_text, hfind, hstale, Bool.false_eq_true, if_false]
        constructor
        · intro h
          cases hdec : zstd_decompress row.text <;> rw [hdec] at h <;> cases h
        · rintro ⟨row', hrow', t, s, ht, hs, hlt⟩
          cases hrow'
          exact absurd ⟨t, s, ht, hs, hlt⟩ hnot
      · intro hwf
        obtain ⟨s, hs⟩ := hwf row (List.mem_of_find?_eq_some hfind)
        simp only [NovelDB.find_text, hfind, hstale, Bool.false_eq_true, if_false]
        rw [hs, zstd_roundtrip]
        constructor
        · intro _
          exact ⟨row, rfl, hnot⟩
        · intro _
          exact ⟨utf8DecodeUnchecked (utf8Encode s), rfl⟩

/-- C1 (witness): the amended theorem applied to a one-row cache whose
stored time equals the descriptor's update time: the lookup is a Hit. -/
theorem spec_c1_find_text_verdicts_witness :
    (∃ b, NovelDB.find_text [⟨"3", some 1, zstd_compress (utf8Encode "hi")⟩]
        (chapterAt (.Id 3) (some 1)) = .ok (.Ok b)) ↔
      ∃ row, findRowById [⟨"3", some 1, zstd_compress (utf8Encode "hi")⟩]
          (chapterAt (.Id 3) (some 1)).identifier.toString = some row ∧
        ¬ ∃ t s, (chapterAt (.Id 3) (some 1)).update_time = some t ∧
          row.date_time = some s ∧ s < t :=
  (spec_c1_find_text_verdicts [⟨"3", some 1, zstd_compress (utf8Encode "hi")⟩]
    (chapterAt (.Id 3) (some 1))).2.2
    (by rintro row hrow; rw [List.mem_singleton] at hrow; exact ⟨"hi", by rw [hrow]⟩)

/-! ## C2 — the cache freshness law and the compression round-trip -/

theorem insert_text_ok {db db1 : NovelDB} {info : ChapterInfo} {text : String}
    (h : NovelDB.insert_text db info text = .ok db1) :
    findRowById db info.identifier.toString = none ∧
      db1 = db ++ [⟨info.identifier.toString, info.update_time,
        zstd_compress (utf8Encode text)⟩] := by
  rw [NovelDB.insert_text] at h
  cases hfind : findRowById db info.identifier.toString with
  | some v =>
    rw [hfind] at h
    simp at h
  | none =>
    rw [hfind] at h
    simp only [Option.isSome_none, Bool.false_eq_true, if_false, Except.ok.injEq] at h
    exact ⟨rfl, h.symm⟩

theorem update_text_ok {db db1 : NovelDB} {info : ChapterInfo} {text : String}
    (h : NovelDB.update_text db info text = .ok db1) :
    (findRowById db info.identifier.toString).isSome = true ∧
      db1 = db.map fun r =>
        if r.identifier == info.identifier.toString then
          ⟨info.identifier.toString, info.update_time, zstd_compress (utf8Encode text)⟩
        else r := by
  rw [NovelDB.update_text] at h
  cases hfind : (findRowById db info.identifier.toString).isSome with
  | false =>
    rw [hfind] at h
    simp at h
  | true =>
    rw [hfind] at h
    simp only [if_true, Except.ok.injEq] at h
    exact ⟨rfl, h.symm⟩

/-- C2: the cache freshness law and the storage round-trip.  After an
insert at `t1` followed by an update at `t2 ≥ t1`, looking the chapter up
with either timestamp yields a Hit carrying the updated body; after only
an insert at `t1 < t2`, a lookup at `t2` is Stale; and decompression
inverts compression on every byte string.  (The Zstd codec itself is
external to the repository and is modelled from the spec as a lossless
framing.) -/
theorem spec_c2_cache_freshness_law :
    (∀ (ident : Identifier) (t1 t2 : Int) (b1 b2 : String) (db db1 db2 : NovelDB),
      t1 ≤ t2 →
      NovelDB.insert_text db (chapterAt ident (some t1)) b1 = .ok db1 →
      NovelDB.update_text db1 (chapterAt ident (some t2)) b2 = .ok db2 →
      NovelDB.find_text db2 (chapterAt ident (some t2)) = .ok (.Ok b2) ∧
      NovelDB.find_text db2 (chapterAt ident (some t1)) = .ok (.Ok b2))
    ∧ (∀ (ident : Identifier) (t1 t2 : Int) (b : String) (db db1 : NovelDB),
      t1 < t2 →
      NovelDB.insert_text db (chapterAt ident (some t1)) b = .ok db1 →
      NovelDB.find_text db1 (chapterAt ident (some t2)) = .ok .Outdate)
    ∧ (∀ bs : Bytes, zstd_decompress (zstd_compress bs) = .ok bs) := by
  refine ⟨?_, ?_, fun bs => rfl⟩
  · intro ident t1 t2 b1 b2 db db1 db2 hle hins hupd
    obtain ⟨habsent, hdb1⟩ := insert_text_ok hins
    obtain ⟨-, hdb2⟩ := update_text_ok hupd
    have hrow1 : findRowById db1 ident.toString =
        some ⟨ident.toString, some t1, zstd_compress (utf8Encode b1)⟩ := by
      rw [hdb1]
      exact findRowById_append_self habsent _ rfl
    have hrow2 : findRowById db2 ident.toString =
        some ⟨ident.toString, some t2, zstd_compress (utf8Encode b2)⟩ := by
      rw [hdb2]
      exact findRowById_map_update hrow1 _ rfl
    constructor
    · have hst : outdateCheck (some t2) (some t2) = false := by
        simp [outdateCheck]
      simp only [NovelDB.find_text, chapterAt, hrow2, hst, Bool.false_eq_true, if_false,
        zstd_roundtrip, utf8DecodeUnchecked_utf8Encode]
    · have hst : outdateCheck (some t1) (some t2) = false := by
        simp only [outdateCheck, decide_eq_false_iff_not]
        omega
      simp only [NovelDB.find_text, chapterAt, hrow2, hst, Bool.false_eq_true, if_false,
        zstd_roundtrip, utf8DecodeUnchecked_utf8Encode]
  · intro ident t1 t2 b db db1 hlt hins
    obtain ⟨habsent, hdb1⟩ := insert_text_ok hins
    have hrow1 : findRowById db1 ident.toString =
        some ⟨ident.toString, some t1, zstd_compress (utf8Encode b)⟩ := by
      rw [hdb1]
      exact findRowById_append_self habsent _ rfl
    have hst : outdateCheck (some t2) (some t1) = true := by
      simp only [outdateCheck, decide_eq_true_eq]
      omega
    simp only [NovelDB.find_text, chapterAt, hrow1, hst, if_true]

/-- C2 (witness): the law run on a concrete cache: insert body "a" at
time 0 into the empty cache, update to body "b" at time 1, then look up at
both times; and a concrete compression round-trip. -/
theorem spec_c2_cache_freshness_law_witness :
    (NovelDB.find_text [⟨"1", some 1, zstd_compress (utf8Encode "b")⟩]
        (chapterAt (.Id 1) (some 1)) = .ok (.Ok "b") ∧
      NovelDB.find_text [⟨"1", some 1, zstd_compress (utf8Encode "b")⟩]
        (chapterAt (.Id 1) (some 0)) = .ok (.Ok "b")) ∧
    NovelDB.find_text [⟨"1", some 0, zstd_compress (utf8Encode "a")⟩]
      (chapterAt (.Id 1) (some 1)) = .ok .Outdate ∧
    zstd_decompress (zstd_compress [1, 2, 3]) = .ok [1, 2, 3] :=
  ⟨spec_c2_cache_freshness_law.1 (.Id 1) 0 1 "a" "b" [] _ _ (by norm_num) rfl rfl,
   spec_c2_cache_freshness_law.2.1 (.Id 1) 0 1 "a" [] _ (by norm_num) rfl,
   spec_c2_cache_freshness_law.2.2 [1, 2, 3]⟩

/-! ## Chapter content parsing (`content_infos` of both sites)

String primitives of Rust `str` are modelled structurally over the
character list of the string so that everything is kernel-executable. -/

/-- Rust `str::trim` (ASCII and the common Unicode whitespace agree on the
characters these chapter lines contain). -/
def strTrim (s : String) : String :=
  ⟨((s.data.dropWhile Char.isWhitespace).reverse.dropWhile Char.isWhitespace).reverse⟩

/-- Rust `str::starts_with`. -/
def strStartsWith (s pat : String) : Bool :=
  pat.data.isPrefixOf s.data

/-- Split a character list at every newline (the pieces of Rust
`str::split('\n')`). -/
def splitNewlines : List Char → List (List Char)
  | [] => [[]]
  | c :: rest =>
    let r := splitNewlines rest
    if c == '\n' then [] :: r
    else
      match r with
      | h :: t => (c :: h) :: t
      | [] => [[c]]

/-- Rust `str::lines`: split on `'\n'`, drop the final empty piece produced
by a trailing newline, and strip one trailing `'\r'` from each line. -/
def rustLines (s : String) : List String :=
  let parts := splitNewlines s.data
  let parts := match parts.getLast? with
    | some [] => parts.dropLast
    | _ => parts
  parts.map fun l => ⟨if l.getLast? == some '\r' then l.dropLast else l⟩

/-- Decidable prefix test used by the substring search. -/
def isPrefixList {α : Type} [DecidableEq α] : List α → List α → Bool
  | [], _ => true
  | _ :: _, [] => false
  | a :: p, b :: l => if a = b then isPrefixList p l else false

/-- First index at which `pat` occurs as a contiguous sublist of `hay`
(Rust `str::find` once both are rendered to the matching units). -/
def idxOfSub {α : Type} [DecidableEq α] : List α → List α → Option Nat
  | [], pat => if isPrefixList pat ([] : List α) then some 0 else none
  | h :: t, pat =>
    if isPrefixList pat (h :: t) then some 0
    else (idxOfSub t pat).map (· + 1)

/-- Rust `str::find(pat)`: the BYTE index of the first occurrence of `pat`
(UTF-8 patterns only match at character boundaries, so this is the index
in the UTF-8 byte rendering). -/
def strByteFind (s pat : String) : Option Nat :=
  idxOfSub (utf8Encode s) (utf8Encode pat)

/-- One parsed piece of a chapter body (`ContentInfo` in
`src/common/client.rs`); an image URL is carried as its rendered string. -/
inductive ContentInfo where
  | Text (text : String)
  | Image (url : String)
deriving DecidableEq, Repr

/-- A character the WHATWG URL standard forbids inside a host (the
forbidden host code points: controls, space, `#`, `/`, `:`, `<`, `>`,
`?`, `@`, `[`, `\`, `]`, `^`, `|`; `:` only up to the port separator,
which is handled by the caller). -/
def isForbiddenHostChar (c : Char) : Bool :=
  c.toNat < 32 || c == ' ' || c == '#' || c == '/' || c == ':' || c == '<' || c == '>' ||
    c == '?' || c == '@' || c == '[' || c == '\\' || c == ']' || c == '^' || c == '|'

/-- Modelled from the spec: `Url::parse` of the external `url` crate
(WHATWG URL parsing), which both sites apply to every extracted image
URL; a parse failure is an error the caller drops the line on.  The model
covers the fragment of the grammar these chapter image lines exercise: an
ASCII-alphabetic scheme, the literal `"://"`, an authority consisting of
a non-empty host free of forbidden host code points plus an optional
all-digit port, then an optional `/`-, `?`- or `#`-led remainder.  A
string without a scheme separator is a relative URL without a base and
fails.  A successful parse is kept as the parsed string itself (the
crate's serialisation/normalisation, e.g. percent-encoding or a trailing
slash on an empty path, is not modelled). -/
def urlParse (s : String) : Option String :=
  match idxOfSub s.data "://".data with
  | none => none
  | some i =>
    let scheme := s.data.take i
    let authority := (s.data.drop (i + 3)).takeWhile fun c =>
      !(c == '/' || c == '?' || c == '#')
    let host := authority.takeWhile fun c => !(c == ':')
    let portOk :=
      match authority.dropWhile fun c => !(c == ':') with
      | [] => true
      | _ :: digits => !digits.isEmpty && digits.all fun c => 48 ≤ c.toNat && c.toNat ≤ 57
    if !scheme.isEmpty && scheme.all Char.isAlpha && !host.isEmpty &&
        host.all (fun c => !isForbiddenHostChar c) && portOk then
      some s
    else none

/-- `SfacgClient::parser_image_url` (`src/sfacg/mod.rs` lines 707-733):
`begin` is the byte index of the first `"https"`, `end` the byte index of
`"[/img]"`, and the candidate URL is built from the CHARACTER iterator as
`chars().skip(begin).take(end - begin)`, then trimmed; finally
`Url::parse(&url)?` either yields the URL or propagates the parse error
(on which the caller drops the line).  (Lean's truncating `Nat`
subtraction stands in for the release-mode wrap of `end - begin` when
`end < begin`, a case the Rust code would panic on in a debug build.) -/
def parser_image_url (line : String) : Except String String :=
  match strByteFind line "https" with
  | none => .error ("Image insertion format is incorrect: " ++ line)
  | some b =>
    match strByteFind line "[/img]" with
    | none => .error ("Image insertion format is incorrect: " ++ line)
    | some e =>
      match urlParse (strTrim ⟨(line.data.drop b).take (e - b)⟩) with
      | some u => .ok u
      | none => .error "URL parse error"

/-- Per-line dispatch of `SfacgClient::content_infos` (lines 556-571): a
line starting with `"[img"` yields an `Image` segment when
`parser_image_url` succeeds and is logged and dropped when it fails; any
other line is a `Text` segment. -/
def sfacgLineSegments (line : String) : List ContentInfo :=
  if strStartsWith line "[img" then
    match parser_image_url line with
    | .ok url => [.Image url]
    | .error _ => []
  else [.Text line]

/-- Modelled from the spec: `CiweimaoClient::parse_image_url` parses the
line as an HTML fragment with the external `scraper` crate and takes the
trimmed `src` attribute of the `img` element, then runs `Url::parse` on
it (`CiweimaoClient::parse_url`), answering `None` on a parse failure;
the attribute extraction is modelled as the text between `src="` and the
closing quote, trimmed, and the URL parse by `urlParse`. -/
def cw_parse_image_url (line : String) : Option String :=
  match idxOfSub line.data "src=\"".data with
  | none => none
  | some i =>
    urlParse (strTrim ⟨(line.data.drop (i + 5)).takeWhile (fun c => !(c == '"'))⟩)

/-- Per-line dispatch of `CiweimaoClient::content_infos` (lines 543-557):
a line starting with `"<img"` yields an `Image` segment when the `src`
extraction succeeds and is dropped when it fails; any other line is a
`Text` segment. -/
def cwLineSegments (line : String) : List ContentInfo :=
  if strStartsWith line "<img" then
    match cw_parse_image_url line with
    | some url => [.Image url]
    | none => []
  else [.Text line]

/-- The shared line loop of both `content_infos` implementations:
`content.lines().map(trim).filter(non-empty)`, then the per-line
dispatch. -/
def parseChapterBody (segs : String → List ContentInfo) (content : String) : List ContentInfo :=
  ((((rustLines content).map strTrim).filter (fun l => !(l == ""))).map segs).flatten

/-- The chapter-body parser of site S. -/
def sfacg_parse_content (content : String) : List ContentInfo :=
  parseChapterBody sfacgLineSegments content

/-- The chapter-body parser of site C. -/
def ciweimao_parse_content (content : String) : List ContentInfo :=
  parseChapterBody cwLineSegments content

/-! ## C3 — the write-through cache discipline of `content_infos`

Both `content_infos` implementations have the same cache skeleton: consult
`find_text`; on a Hit use the cached body with no fetch and no write; on a
miss or a stale row fetch the body from the network (for site C: fetch the
chapter command, derive the AES key, fetch and decrypt the payload — the
whole network/crypto pipeline is summarised by the `remote` argument, the
body it produces) and write it back with `insert_text` or `update_text`
respectively.  The `fetched` flag and `write` field record which effects
the run performed. -/

/-- Which cache write a content run performed. -/
inductive CacheWrite where
  | noWrite
  | insert
  | update
deriving DecidableEq, Repr

/-- Observable outcome of one `content_infos` call: the parsed segments,
the cache state afterwards, whether the network fetch ran, and which cache
write happened. -/
structure ContentRun where
  infos : List ContentInfo
  db : NovelDB
  fetched : Bool
  write : CacheWrite
deriving DecidableEq, Repr

/-- The cache skeleton shared by `SfacgClient::content_infos`
(`src/sfacg/mod.rs` lines 499-580) and `CiweimaoClient::content_infos`
(`src/ciweimao/mod.rs` lines 477-565), parameterised by the per-site body
parser. -/
def content_pipeline (parse : String → List ContentInfo) (db : NovelDB) (info : ChapterInfo)
    (remote : String) : Except String ContentRun :=
  match NovelDB.find_text db info with
  | .error e => .error e
  | .ok (.Ok str) => .ok ⟨parse str, db, false, .noWrite⟩
  | .ok .None =>
    match NovelDB.insert_text db info remote with
    | .ok db2 => .ok ⟨parse remote, db2, true, .insert⟩
    | .error e => .error e
  | .ok .Outdate =>
    match NovelDB.update_text db info remote with
    | .ok db2 => .ok ⟨parse remote, db2, true, .update⟩
    | .error e => .error e

/-- `SfacgClient::content_infos`, with the signed GET that returns the
plaintext body summarised by `remote`. -/
def sfacg_content_infos (db : NovelDB) (info : ChapterInfo) (remote : String) :
    Except String ContentRun :=
  content_pipeline sfacg_parse_content db info remote

/-- `CiweimaoClient::content_infos`, with the command fetch, key
derivation, payload fetch and AES decryption summarised by `remote` (the
decrypted, UTF-8-validated body). -/
def ciweimao_content_infos (db : NovelDB) (info : ChapterInfo) (remote : String) :
    Except String ContentRun :=
  content_pipeline ciweimao_parse_content db info remote

theorem content_pipeline_cases (parse : String → List ContentInfo) (db : NovelDB)
    (info : ChapterInfo) (remote : String) (run : ContentRun)
    (h : content_pipeline parse db info remote = .ok run) :
    (∃ t, NovelDB.find_text db info = .ok (.Ok t) ∧
       run = ⟨parse t, db, false, .noWrite⟩)
    ∨ (NovelDB.find_text db info = .ok .None ∧ ∃ db2,
       NovelDB.insert_text db info remote = .ok db2 ∧
       run = ⟨parse remote, db2, true, .insert⟩)
    ∨ (NovelDB.find_text db info = .ok .Outdate ∧ ∃ db2,
       NovelDB.update_text db info remote = .ok db2 ∧
       run = ⟨parse remote, db2, true, .update⟩) := by
  rw [content_pipeline] at h
  cases hf : NovelDB.find_text db info with
  | error e => rw [hf] at h; cases h
  | ok res =>
    rw [hf] at h
    cases res with
    | Ok t =>
      left
      cases h
      exact ⟨t, rfl, rfl⟩
    | None =>
      right; left
      cases hins : NovelDB.insert_text db info remote with
      | error e => rw [hins] at h; cases h
      | ok db2 =>
        rw [hins] at h
        cases h
        exact ⟨rfl, db2, rfl, rfl⟩
    | Outdate =>
      right; right
      cases hupd : NovelDB.update_text db info remote with
      | error e => rw [hupd] at h; cases h
      | ok db2 =>
        rw [hupd] at h
        cases h
        exact ⟨rfl, db2, rfl, rfl⟩

/-- C3: on both sites, `content_infos` first consults the cache; a Hit
uses the cached body with no fetch and no cache write; a miss fetches and
then inserts; a stale row fetches and then updates — the three cases are
exhaustive for every successful run. -/
theorem spec_c3_content_infos_cache_discipline :
    (∀ (db : NovelDB) (info : ChapterInfo) (remote : String) (run : ContentRun),
      sfacg_content_infos db info remote = .ok run →
      (∃ t, NovelDB.find_text db info = .ok (.Ok t) ∧
         run = ⟨sfacg_parse_content t, db, false, .noWrite⟩)
      ∨ (NovelDB.find_text db info = .ok .None ∧ ∃ db2,
         NovelDB.insert_text db info remote = .ok db2 ∧
         run = ⟨sfacg_parse_content remote, db2, true, .insert⟩)
      ∨ (NovelDB.find_text db info = .ok .Outdate ∧ ∃ db2,
         NovelDB.update_text db info remote = .ok db2 ∧
         run = ⟨sfacg_parse_content remote, db2, true, .update⟩))
    ∧ (∀ (db : NovelDB) (info : ChapterInfo) (remote : String) (run : ContentRun),
      ciweimao_content_infos db info remote = .ok run →
      (∃ t, NovelDB.find_text db info = .ok (.Ok t) ∧
         run = ⟨ciweimao_parse_content t, db, false, .noWrite⟩)
      ∨ (NovelDB.find_text db info = .ok .None ∧ ∃ db2,
         NovelDB.insert_text db info remote = .ok db2 ∧
         run = ⟨ciweimao_parse_content remote, db2, true, .insert⟩)
      ∨ (NovelDB.find_text db info = .ok .Outdate ∧ ∃ db2,
         NovelDB.update_text db info remote = .ok db2 ∧
         run = ⟨ciweimao_parse_content remote, db2, true, .update⟩)) :=
  ⟨fun db info remote run h => content_pipeline_cases sfacg_parse_content db info remote run h,
   fun db info remote run h => content_pipeline_cases ciweimao_parse_content db info remote run h⟩

/-- C3 (witness): a run over the empty cache for chapter id 2 with remote
body "hello" takes the miss/insert path. -/
theorem spec_c3_content_infos_cache_discipline_witness :
    (∃ t, NovelDB.find_text [] (chapterAt (.Id 2) none) = .ok (.Ok t) ∧
       (⟨sfacg_parse_content "hello",
          [⟨(chapterAt (Identifier.Id 2) none).identifier.toString, none,
            zstd_compress (utf8Encode "hello")⟩], true, .insert⟩ : ContentRun) =
         ⟨sfacg_parse_content t, [], false, .noWrite⟩)
    ∨ (NovelDB.find_text [] (chapterAt (.Id 2) none) = .ok .None ∧ ∃ db2,
       NovelDB.insert_text [] (chapterAt (.Id 2) none) "hello" = .ok db2 ∧
       (⟨sfacg_parse_content "hello",
          [⟨(chapterAt (Identifier.Id 2) none).identifier.toString, none,
            zstd_compress (utf8Encode "hello")⟩], true, .insert⟩ : ContentRun) =
         ⟨sfacg_parse_content "hello", db2, true, .insert⟩)
    ∨ (NovelDB.find_text [] (chapterAt (.Id 2) none) = .ok .Outdate ∧ ∃ db2,
       NovelDB.update_text [] (chapterAt (.Id 2) none) "hello" = .ok db2 ∧
       (⟨sfacg_parse_content "hello",
          [⟨(chapterAt (Identifier.Id 2) none).identifier.toString, none,
            zstd_compress (utf8Encode "hello")⟩], true, .insert⟩ : ContentRun) =
         ⟨sfacg_parse_content "hello", db2, true, .update⟩) :=
  spec_c3_content_infos_cache_discipline.1 [] (chapterAt (.Id 2) none) "hello"
    ⟨sfacg_parse_content "hello",
      [⟨(chapterAt (Identifier.Id 2) none).identifier.toString, none,
        zstd_compress (utf8Encode "hello")⟩], true, .insert⟩ rfl

/-! ## C7 — the site-S image-line URL extraction -/

theorem char_toNat_injective : Function.Injective Char.toNat := by
  intro a b h
  exact Char.ext (UInt32.ext h)

theorem isPrefixList_map {α β : Type} [DecidableEq α] [DecidableEq β] (f : α → β)
    (hf : Function.Injective f) (p : List α) :
    ∀ l : List α, isPrefixList (p.map f) (l.map f) = isPrefixList p l := by
  induction p with
  | nil => intro l; cases l <;> rfl
  | cons a p' ih =>
    intro l
    cases l with
    | nil => rfl
    | cons b l' =>
      simp only [List.map_cons, isPrefixList]
      by_cases hab : a = b
      · rw [if_pos hab, if_pos (by rw [hab]), ih]
      · rw [if_neg hab, if_neg (fun hcontra => hab (hf hcontra))]

theorem idxOfSub_map {α β : Type} [DecidableEq α] [DecidableEq β] (f : α → β)
    (hf : Function.Injective f) (l p : List α) :
    idxOfSub (l.map f) (p.map f) = idxOfSub l p := by
  induction l with
  | nil =>
    show idxOfSub (List.map f []) (p.map f) = _
    rw [List.map_nil, idxOfSub, idxOfSub,
      show ([] : List β) = List.map f [] from rfl, isPrefixList_map f hf]
  | cons h t ih =>
    rw [List.map_cons, idxOfSub, idxOfSub,
      show (f h :: t.map f) = List.map f (h :: t) from rfl, isPrefixList_map f hf, ih]

/-- On an all-ASCII string, the UTF-8 bytes are exactly the character
scalar values. -/
theorem utf8Encode_ascii {s : String} (h : ∀ c ∈ s.data, c.toNat < 128) :
    utf8Encode s = s.data.map Char.toNat := by
  obtain ⟨data⟩ := s
  rw [utf8Encode]
  induction data with
  | nil => rfl
  | cons c cs ih =>
    simp only [List.map_cons, List.flatten_cons]
    rw [charUtf8_one (h c (by simp)), ih (fun c' hc' => h c' (by simp [hc']))]
    rfl

/-- On all-ASCII strings the byte-index search of `str::find` agrees with
the character-index search. -/
theorem strByteFind_ascii {line pat : String} (hline : ∀ c ∈ line.data, c.toNat < 128)
    (hpat : ∀ c ∈ pat.data, c.toNat < 128) :
    strByteFind line pat = idxOfSub line.data pat.data := by
  rw [strByteFind, utf8Encode_ascii hline, utf8Encode_ascii hpat,
    idxOfSub_map Char.toNat char_toNat_injective]

/-- The URL C7 predicts, following the claim's words: the substring of the
line starting at the first occurrence of `"https"` and extending up to
(exclusive of) `"[/img]"`; nothing when either bound is missing. -/
def c7ClaimedUrl (line : String) : Option String :=
  match idxOfSub line.data "https".data, idxOfSub line.data "[/img]".data with
  | some b, some e => some ⟨(line.data.drop b).take (e - b)⟩
  | _, _ => none

/-- C7 (counterexample): a chapter line with one multi-byte character
before the URL.  `str::find` returns BYTE indices but the extraction
slices the CHARACTER iterator with them, so the candidate URL is shifted:
the claim predicts an Image segment with the URL `"https://a"` (which is
a perfectly parseable URL), but the code extracts `"ttps://a["`, fails to
parse it (`[` is a forbidden host code point) and skips the line, so no
segment at all is emitted. -/
theorem spec_c7_counterexample :
    c7ClaimedUrl "[img]¡https://a[/img]" = some "https://a" ∧
    urlParse "https://a" = some "https://a" ∧
    parser_image_url "[img]¡https://a[/img]" = .error "URL parse error" ∧
    sfacgLineSegments "[img]¡https://a[/img]" = [] :=
  ⟨rfl, rfl, rfl, rfl⟩

/-- C7 (amended): for a site-S chapter line consisting of single-byte
(ASCII) characters, when both `"https"` and `"[/img]"` occur and the
trimmed substring between them parses as a URL, the emitted Image
segment's URL is exactly that substring of the line from the first
`"https"` up to (exclusive of) `"[/img]"`, as the claim states; a line
with the `"[img"` marker whose extracted substring fails URL parsing, or
which is missing either bound, is logged and skipped, never emitted as a
segment.  (On lines with multi-byte characters before the bounds the
byte/character index mismatch shifts the slice; see the
counterexample.) -/
theorem spec_c7_sfacg_image_url_extraction :
    (∀ (line : String) (b e : Nat) (u : String),
      (∀ c ∈ line.data, c.toNat < 128) →
      strByteFind line "https" = some b →
      strByteFind line "[/img]" = some e →
      urlParse (strTrim ⟨(line.data.drop b).take (e - b)⟩) = some u →
      parser_image_url line = .ok u ∧
      c7ClaimedUrl line = some ⟨(line.data.drop b).take (e - b)⟩ ∧
      (strStartsWith line "[img" = true → sfacgLineSegments line = [.Image u]))
    ∧ (∀ (line : String) (b e : Nat),
      strByteFind line "https" = some b →
      strByteFind line "[/img]" = some e →
      urlParse (strTrim ⟨(line.data.drop b).take (e - b)⟩) = none →
      strStartsWith line "[img" = true →
      sfacgLineSegments line = [])
    ∧ (∀ line : String,
      strStartsWith line "[img" = true →
      (strByteFind line "https" = none ∨ strByteFind line "[/img]" = none) →
      sfacgLineSegments line = []) := by
  refine ⟨?_, ?_, ?_⟩
  · intro line b e u hascii hb he hurl
    have hparse : parser_image_url line = .ok u := by
      simp only [parser_image_url, hb, he, hurl]
    refine ⟨hparse, ?_, ?_⟩
    · have hb' : idxOfSub line.data "https".data = some b := by
        rw [← strByteFind_ascii hascii (by decide)]
        exact hb
      have he' : idxOfSub line.data "[/img]".data = some e := by
        rw [← strByteFind_ascii hascii (by decide)]
        exact he
      rw [c7ClaimedUrl, hb', he']
    · intro hstart
      rw [sfacgLineSegments, if_pos hstart, hparse]
  · intro line b e hb he hurl hstart
    rw [sfacgLineSegments, if_pos hstart]
    simp only [parser_image_url, hb, he, hurl]
  · intro line hstart hmiss
    rw [sfacgLineSegments, if_pos hstart]
    rcases hmiss with hnone | hnone
    · rw [parser_image_url, hnone]
    · rw [parser_image_url]
      cases hfind : strByteFind line "https" with
      | none => rfl
      | some b => rw [hnone]

/-- C7 (witness): the extraction on the ASCII line
`"[img=x]https://foo.com/x.png[/img]"` (bounds at byte indices 7 and 28,
substring a parseable URL); the skip of the ASCII line
`"[img]https nope[/img]"` whose substring `"https nope"` fails URL
parsing; and the skip of the unterminated line `"[img oops"`. -/
theorem spec_c7_sfacg_image_url_extraction_witness :
    (parser_image_url "[img=x]https://foo.com/x.png[/img]" = .ok "https://foo.com/x.png" ∧
      c7ClaimedUrl "[img=x]https://foo.com/x.png[/img]" =
        some ⟨(("[img=x]https://foo.com/x.png[/img]" : String).data.drop 7).take (28 - 7)⟩ ∧
      (strStartsWith "[img=x]https://foo.com/x.png[/img]" "[img" = true →
        sfacgLineSegments "[img=x]https://foo.com/x.png[/img]" =
          [.Image "https://foo.com/x.png"])) ∧
    sfacgLineSegments "[img]https nope[/img]" = [] ∧
    sfacgLineSegments "[img oops" = [] :=
  ⟨spec_c7_sfacg_image_url_extraction.1 "[img=x]https://foo.com/x.png[/img]" 7 28
      "https://foo.com/x.png" (by decide) (by decide) (by decide) (by decide),
   spec_c7_sfacg_image_url_extraction.2.1 "[img]https nope[/img]" 5 15
      (by decide) (by decide) (by decide) (by decide),
   spec_c7_sfacg_image_url_extraction.2.2 "[img oops" (by decide) (Or.inr (by decide))⟩

/-! ## C5 — the `sf_security` sign header (`src/sfacg/utils.rs` lines 140-152)

The MD5 digest (computed in Rust via the external `boring` crate) is
implemented here in full over byte lists so the model is executable. -/

/-- `count` little-endian bytes of `n`. -/
def leBytes : Nat → Nat → Bytes
  | 0, _ => []
  | k + 1, n => n % 256 :: leBytes k (n / 256)

/-- The little-endian 32-bit word at index `i` of a 64-byte block. -/
def leWord (block : Bytes) (i : Nat) : Nat :=
  block.getD (4 * i) 0 + 256 * block.getD (4 * i + 1) 0 +
    65536 * block.getD (4 * i + 2) 0 + 16777216 * block.getD (4 * i + 3) 0

/-- Left rotation of a 32-bit word (arguments below `2^32`). -/
def rotl32 (x s : Nat) : Nat :=
  (x * 2 ^ s) % 4294967296 + x / 2 ^ (32 - s)

/-- The per-round MD5 sine constants. -/
def md5K : List Nat :=
  [0xd76aa478, 0xe8c7b756, 0x242070db, 0xc1bdceee,
   0xf57c0faf, 0x4787c62a, 0xa8304613, 0xfd469501,
   0x698098d8, 0x8b44f7af, 0xffff5bb1, 0x895cd7be,
   0x6b901122, 0xfd987193, 0xa679438e, 0x49b40821,
   0xf61e2562, 0xc040b340, 0x265e5a51, 0xe9b6c7aa,
   0xd62f105d, 0x02441453, 0xd8a1e681, 0xe7d3fbc8,
   0x21e1cde6, 0xc33707d6, 0xf4d50d87, 0x455a14ed,
   0xa9e3e905, 0xfcefa3f8, 0x676f02d9, 0x8d2a4c8a,
   0xfffa3942, 0x8771f681, 0x6d9d6122, 0xfde5380c,
   0xa4beea44, 0x4bdecfa9, 0xf6bb4b60, 0xbebfbc70,
   0x289b7ec6, 0xeaa127fa, 0xd4ef3085, 0x04881d05,
   0xd9d4d039, 0xe6db99e5, 0x1fa27cf8, 0xc4ac5665,
   0xf4292244, 0x432aff97, 0xab9423a7, 0xfc93a039,
   0x655b59c3, 0x8f0ccc92, 0xffeff47d, 0x85845dd1,
   0x6fa87e4f, 0xfe2ce6e0, 0xa3014314, 0x4e0811a1,
   0xf7537e82, 0xbd3af235, 0x2ad7d2bb, 0xeb86d391]

/-- The per-round MD5 rotation amounts. -/
def md5S : List Nat :=
  [7, 12, 17, 22, 7, 12, 17, 22, 7, 12, 17, 22, 7, 12, 17, 22,
   5, 9, 14, 20, 5, 9, 14, 20, 5, 9, 14, 20, 5, 9, 14, 20,
   4, 11, 16, 23, 4, 11, 16, 23, 4, 11, 16, 23, 4, 11, 16, 23,
   6, 10, 15, 21, 6, 10, 15, 21, 6, 10, 15, 21, 6, 10, 15, 21]

/-- One MD5 round step on the register quadruple. -/
def md5Step (block : Bytes) (st : Nat × Nat × Nat × Nat) (i : Nat) :
    Nat × Nat × Nat × Nat :=
  match st with
  | (a, b, c, d) =>
    let f :=
      if i < 16 then (b &&& c) ||| ((4294967295 - b) &&& d)
      else if i < 32 then (d &&& b) ||| ((4294967295 - d) &&& c)
      else if i < 48 then b ^^^ c ^^^ d
      else c ^^^ (b ||| (4294967295 - d))
    let g :=
      if i < 16 then i
      else if i < 32 then (5 * i + 1) % 16
      else if i < 48 then (3 * i + 5) % 16
      else (7 * i) % 16
    let f2 := (f + a + md5K.getD i 0 + leWord block g) % 4294967296
    (d, (b + rotl32 f2 (md5S.getD i 0)) % 4294967296, b, c)

/-- The MD5 compression function on one 64-byte block. -/
def md5Compress (st : Nat × Nat × Nat × Nat) (block : Bytes) : Nat × Nat × Nat × Nat :=
  match (List.range 64).foldl (md5Step block) st, st with
  | (a, b, c, d), (a0, b0, c0, d0) =>
    ((a0 + a) % 4294967296, (b0 + b) % 4294967296, (c0 + c) % 4294967296, (d0 + d) % 4294967296)

/-- Run the compression over `count` consecutive 64-byte blocks. -/
def md5Blocks : Nat → Bytes → (Nat × Nat × Nat × Nat) → Nat × Nat × Nat × Nat
  | 0, _, st => st
  | count + 1, bytes, st => md5Blocks count (bytes.drop 64) (md5Compress st (bytes.take 64))

/-- MD5 padding: `0x80`, zeros to 56 mod 64, then the bit length as eight
little-endian bytes. -/
def md5Pad (msg : Bytes) : Bytes :=
  msg ++ [128] ++ List.replicate ((120 - (msg.length + 1) % 64) % 64) 0 ++
    leBytes 8 ((msg.length * 8) % 18446744073709551616)

/-- The MD5 digest of a byte string (the `boring` crate's
`hash(MessageDigest::md5(), data)`, implemented in full). -/
def md5 (msg : Bytes) : Bytes :=
  match md5Blocks ((md5Pad msg).length / 64) (md5Pad msg)
      (1732584193, 4023233417, 2562383102, 271733878) with
  | (a, b, c, d) => leBytes 4 a ++ leBytes 4 b ++ leBytes 4 c ++ leBytes 4 d

/-- Sanity vector: MD5 of the empty message. -/
theorem md5_empty_vector :
    md5 [] = [0xd4, 0x1d, 0x8c, 0xd9, 0x8f, 0x00, 0xb2, 0x04,
              0xe9, 0x80, 0x09, 0x98, 0xec, 0xf8, 0x42, 0x7e] := by
  decide

/-- Uppercase hexadecimal digit. -/
def hexDigitUpper (n : Nat) : Char :=
  Char.ofNat (if n < 10 then 48 + n else 55 + n)

/-- Uppercase hexadecimal rendering of a byte string
(`hex_simd::encode_to_string(..., AsciiCase::Upper)`). -/
def hexUpper (bytes : Bytes) : String :=
  ⟨(bytes.map fun b => [hexDigitUpper (b / 16), hexDigitUpper (b % 16)]).flatten⟩

/-- The fixed signing salt of site S (`SfacgClient::SALT`). -/
def sfacgSALT : String := "FMLxgOdsfxmN!Dt4"

/-- `SfacgClient::sf_security` (`src/sfacg/utils.rs` lines 140-152) for a
fixed nonce, timestamp and device token: format the concatenation
`{uuid}{timestamp}{device_token}{SALT}`, hash its UTF-8 bytes with MD5,
and assemble the header.  (The source draws `uuid` from `Uuid::new_v4()`,
`timestamp` from the clock and `device_token` from the process-wide uid;
they are parameters here.) -/
def sf_security (uuid : String) (timestamp : Nat) (device_token : String) : String :=
  let data := uuid ++ toString timestamp ++ device_token ++ sfacgSALT
  "nonce=" ++ uuid ++ "&timestamp=" ++ toString timestamp ++ "&devicetoken=" ++ device_token ++
    "&sign=" ++ hexUpper (md5 (utf8Encode data))

/-- The header C5 predicts, following the claim's words: the literal
string `nonce=<uuid>&timestamp=<ts>&devicetoken=<tok>&sign=<SIGN>` with
`SIGN` the uppercase hex MD5 of the byte concatenation
`uuid || timestamp || device_token || salt`. -/
def c5SpecSignHeader (uuid : String) (timestamp : Nat) (device_token : String) : String :=
  "nonce=" ++ uuid ++ "&timestamp=" ++ toString timestamp ++ "&devicetoken=" ++ device_token ++
    "&sign=" ++ hexUpper (md5 (utf8Encode uuid ++ utf8Encode (toString timestamp) ++
      utf8Encode device_token ++ utf8Encode sfacgSALT))

theorem utf8Encode_append (a b : String) :
    utf8Encode (a ++ b) = utf8Encode a ++ utf8Encode b := by
  rw [utf8Encode, utf8Encode, utf8Encode, String.data_append, List.map_append,
    List.flatten_append]

/-- C5: for every fixed `(uuid, timestamp, device_token)`, the sign header
built by `sf_security` is exactly the string the claim specifies: UTF-8 of
a string concatenation is the concatenation of the UTF-8 renderings, so
hashing the formatted string equals hashing the concatenated byte
strings. -/
theorem spec_c5_sf_security_header (uuid : String) (timestamp : Nat) (device_token : String) :
    sf_security uuid timestamp device_token = c5SpecSignHeader uuid timestamp device_token := by
  rw [sf_security, c5SpecSignHeader, utf8Encode_append, utf8Encode_append, utf8Encode_append]

set_option maxRecDepth 4096 in
/-- Sanity vector: MD5 of a 79-byte message spanning two padded blocks. -/
theorem md5_two_block_vector :
    md5 (utf8Encode
      "abcdefghijklmnopqrstuvwxyzabcdefghijklmnopqrstuvwxyzabcdefghijklmnopqrstuvwxyz") =
      [0x15, 0x06, 0x1f, 0xc3, 0x84, 0x08, 0x96, 0xc5,
       0x29, 0x9a, 0x5b, 0x8c, 0xc1, 0xcf, 0x5b, 0x5f] := by
  decide

/-! ## C4 — envelope-status mapping of the two sites

Rust `panic!`/`expect` sites in the envelope handling are modelled by an
explicit failure variant so that "returns an error" and "panics" stay
distinguishable. -/

/-- Failure of a site-S call: a structured HTTP error
(`Error::Http { code, msg }`), an invalid status-code value
(`StatusCode::from_u16` rejecting codes outside 100..=999), or a panic
from `expect`. -/
inductive SfFailure where
  | http (code : Nat) (msg : String)
  | invalidStatusCode (code : Nat)
  | panic (msg : String)
deriving DecidableEq, Repr

/-- The sfacg response envelope status (`Status` in `src/sfacg/mod.rs`
lines 38-44). -/
structure SfStatus where
  http_code : Nat
  error_code : Nat
  msg_type : Nat
  msg : Option String
deriving DecidableEq, Repr

/-- `Status::ok`: `http_code == StatusCode::OK && error_code == 200`. -/
def SfStatus.ok (s : SfStatus) : Bool :=
  s.http_code == 200 && s.error_code == 200

/-- `Status::unauthorized`: `http_code == StatusCode::UNAUTHORIZED &&
error_code == 502`. -/
def SfStatus.unauthorized (s : SfStatus) : Bool :=
  s.http_code == 401 && s.error_code == 502

/-- `Status::check` (`src/sfacg/mod.rs` lines 55-66): on a non-ok status,
build `Error::Http` from `StatusCode::from_u16(http_code)` (an error of
its own outside 100..=999) and from the message, whose absence panics via
`expect("The error message does not exist")`. -/
def SfStatus.check (s : SfStatus) : Except SfFailure Unit :=
  if s.ok then .ok ()
  else if 100 ≤ s.http_code ∧ s.http_code ≤ 999 then
    match s.msg with
    | some m => .error (.http s.http_code m)
    | none => .error (.panic "The error message does not exist")
  else .error (.invalidStatusCode s.http_code)

/-- A site-S envelope with its optional `data` payload. -/
structure SfResponse (α : Type) where
  status : SfStatus
  data : Option α
deriving DecidableEq, Repr

/-- The envelope handling of `SfacgClient::user_info` (`src/sfacg/mod.rs`
lines 341-368): an unauthorized status returns `Ok(None)` before the
check; then `check`; then the payload is unwrapped with
`expect("Api error, no `data` field")`. -/
def sfacg_user_info (resp : SfResponse String) : Except SfFailure (Option String) :=
  if resp.status.unauthorized then .ok none
  else
    match resp.status.check with
    | .error e => .error e
    | .ok () =>
      match resp.data with
      | some nick => .ok (some (strTrim nick))
      | none => .error (.panic "Api error, no `data` field")

/-- The envelope handling of `SfacgClient::novel_info` (`src/sfacg/mod.rs`
lines 370-440): `check` is called unconditionally — the function has no
not-found branch and returns the payload (whose absence panics) on
success.  The DTO assembly applied to the payload is kept abstract in the
payload type. -/
def sfacg_novel_info {α : Type} (resp : SfResponse α) : Except SfFailure α :=
  match resp.status.check with
  | .error e => .error e
  | .ok () =>
    match resp.data with
    | some d => .ok d
    | none => .error (.panic "Api error, no `data` field")

/-- Failure of a site-C call: the upstream tip carried by
`Error::NovelApi`, or a panic (`expect`/`unwrap`). -/
inductive CwFailure where
  | novelApi (tip : String)
  | panic (msg : String)
deriving DecidableEq, Repr

/-- A site-C envelope: the decrypted JSON `{code, tip?, data?}`. -/
structure CwResponse (α : Type) where
  code : String
  tip : Option String
  data : Option α
deriving DecidableEq, Repr

/-- `check_response` (`src/ciweimao/mod.rs` lines 51-61): any code other
than `"100000"` raises `Error::NovelApi` with the tip, panicking via
`expect("The error message does not exist")` when the tip is absent. -/
def check_response (code : String) (tip : Option String) : Except CwFailure Unit :=
  if code ≠ "100000" then
    match tip with
    | some t => .error (.novelApi t)
    | none => .error (.panic "The error message does not exist")
  else .ok ()

/-- The envelope handling of `CiweimaoClient::user_info`
(`src/ciweimao/mod.rs` lines 347-379): empty credentials short-circuit to
`Ok(None)`; the documented login-expired code `"200100"` maps to
`Ok(None)`; then `check_response`; then the payload is unwrapped. -/
def ciweimao_user_info (account login_token : String) (resp : CwResponse String) :
    Except CwFailure (Option String) :=
  if account == "" || login_token == "" then .ok none
  else if resp.code == "200100" then .ok none
  else
    match check_response resp.code resp.tip with
    | .error e => .error e
    | .ok () =>
      match resp.data with
      | some nick => .ok (some nick)
      | none => .error (.panic "called `Option::unwrap()` on a `None` value")

/-- The envelope handling of `CiweimaoClient::novel_info`
(`src/ciweimao/mod.rs` lines 381-423): the documented not-found code
`"320001"` maps to `Ok(None)`; then `check_response`; then the payload is
unwrapped.  The DTO assembly is kept abstract in the payload type. -/
def ciweimao_novel_info {α : Type} (resp : CwResponse α) : Except CwFailure (Option α) :=
  if resp.code == "320001" then .ok none
  else
    match check_response resp.code resp.tip with
    | .error e => .error e
    | .ok () =>
      match resp.data with
      | some d => .ok (some d)
      | none => .error (.panic "called `Option::unwrap()` on a `None` value")

/-- C4 (counterexample): a site-S `(http=404, err=404)` envelope makes
`novel_info` raise the structured HTTP error — the function has no
not-found branch (its return type has no Missing case), so the claim's
`404/404 ↦ Missing` mapping fails on the code. -/
theorem spec_c4_counterexample :
    sfacg_novel_info (α := Nat) ⟨⟨404, 404, 0, some "fail"⟩, none⟩ =
      .error (.http 404 "fail") := rfl

/-- C4 (amended): the envelope-status mapping as the code implements it.
For site S, `(http=401, err=502)` makes `user_info` return Missing,
`(http=200, err=200)` is success for both calls, and every other envelope
(message present, code in the valid 100..=999 range) raises the
structured HTTP protocol error — including `(http=404, err=404)` on
`novel_info`, which has no not-found branch.  For site C, `"200100"`
(login expired) on `user_info` and `"320001"` (not found) on `novel_info`
yield `Ok(None)`, `"100000"` is success, and any other code raises the
protocol error carrying the tip. -/
theorem spec_c4_envelope_status_mapping :
    (∀ (mt : Nat) (msg : Option String) (d : Option String),
      sfacg_user_info ⟨⟨401, 502, mt, msg⟩, d⟩ = .ok none)
    ∧ (∀ (mt : Nat) (msg : Option String) (nick : String),
      sfacg_user_info ⟨⟨200, 200, mt, msg⟩, some nick⟩ = .ok (some (strTrim nick)))
    ∧ (∀ (α : Type) (mt : Nat) (msg : Option String) (dv : α),
      sfacg_novel_info ⟨⟨200, 200, mt, msg⟩, some dv⟩ = .ok dv)
    ∧ (∀ (α : Type) (hc ec mt : Nat) (m : String) (d : Option α),
      ¬(hc = 200 ∧ ec = 200) → 100 ≤ hc → hc ≤ 999 →
      sfacg_novel_info ⟨⟨hc, ec, mt, some m⟩, d⟩ = .error (.http hc m))
    ∧ (∀ (tip : Option String) (d : Option String) (account login_token : String),
      ciweimao_user_info account login_token ⟨"200100", tip, d⟩ = .ok none)
    ∧ (∀ (α : Type) (tip : Option String) (d : Option α),
      ciweimao_novel_info ⟨"320001", tip, d⟩ = .ok none)
    ∧ (∀ (α : Type) (tip : Option String) (dv : α),
      ciweimao_novel_info ⟨"100000", tip, some dv⟩ = .ok (some dv))
    ∧ (∀ (α : Type) (code t : String) (d : Option α),
      code ≠ "100000" → code ≠ "320001" →
      ciweimao_novel_info ⟨code, some t, d⟩ = .error (.novelApi t)) := by
  refine ⟨fun mt msg d => rfl, fun mt msg nick => rfl, fun α mt msg dv => rfl, ?_,
    ?_, fun α tip d => rfl, fun α tip dv => rfl, ?_⟩
  · intro α hc ec mt m d hne h1 h2
    have hok : SfStatus.ok ⟨hc, ec, mt, some m⟩ = false := by
      rw [Bool.eq_false_iff]
      intro hcontra
      rw [SfStatus.ok, Bool.and_eq_true, beq_iff_eq, beq_iff_eq] at hcontra
      exact hne hcontra
    simp only [sfacg_novel_info, SfStatus.check, hok, Bool.false_eq_true, if_false,
      if_pos (And.intro h1 h2)]
  · intro tip d account login_token
    rw [ciweimao_user_info]
    by_cases h : (account == "" || login_token == "") = true
    · rw [if_pos h]
    · rw [if_neg h]
      rfl
  · intro α code t d hne100 hne320
    have h32 : (code == "320001") = false := by
      rw [Bool.eq_false_iff]
      intro hcontra
      exact hne320 (beq_iff_eq.mp hcontra)
    simp only [ciweimao_novel_info, h32, Bool.false_eq_true, if_false, check_response,
      if_pos hne100]

/-- C4 (witness): the amended mapping at concrete envelopes: a site-S
404/404 `novel_info` envelope raises the HTTP error, and a site-C
`"500100"` envelope raises the protocol error with its tip. -/
theorem spec_c4_envelope_status_mapping_witness :
    sfacg_novel_info (α := Nat) ⟨⟨404, 404, 0, some "not found"⟩, none⟩ =
      .error (.http 404 "not found") ∧
    ciweimao_novel_info (α := Nat) ⟨"500100", some "tip", none⟩ =
      .error (.novelApi "tip") :=
  ⟨spec_c4_envelope_status_mapping.2.2.2.1 Nat 404 404 0 "not found" none
      (by omega) (by omega) (by omega),
   spec_c4_envelope_status_mapping.2.2.2.2.2.2.2 Nat "500100" "tip" none
      (by decide) (by decide)⟩

/-! ## C6 — the captcha server's bind address -/

/-- The socket bind of `CiweimaoClient::run_server` (`src/ciweimao/mod.rs`
lines 1030-1053): the code passes the fixed address `([127, 0, 0, 1],
3030)` to `warp`'s `bind_with_graceful_shutdown` (next to a TODO about the
port being already taken).  The environment is the set of loopback ports
that are free at bind time; binding succeeds exactly when the requested
port is free. -/
def run_server_bind (freePorts : List Nat) : Option ((Nat × Nat × Nat × Nat) × Nat) :=
  if 3030 ∈ freePorts then some ((127, 0, 0, 1), 3030) else none

/-- C6 (counterexample): with port 3030 taken and port 4000 free, the
server binds nothing even though an unused port exists — the port is not
"chosen to be free at bind time"; and whenever a bind succeeds the port is
the constant 3030 regardless of the environment. -/
theorem spec_c6_counterexample :
    run_server_bind [4000] = none ∧ ([4000] : List Nat) ≠ [] ∧
    run_server_bind [3030, 4000] = some ((127, 0, 0, 1), 3030) ∧
    run_server_bind [4000, 3030] = some ((127, 0, 0, 1), 3030) := by
  refine ⟨?_, by decide, ?_, ?_⟩ <;> decide

/-- C6 (amended): every run of the captcha broker binds its challenge
server to the FIXED loopback address `127.0.0.1:3030`; the bind succeeds
only when that constant port is free (the code carries a TODO for the
occupied case), never on an ephemeral port. -/
theorem spec_c6_run_server_fixed_port (freePorts : List Nat)
    (addr : (Nat × Nat × Nat × Nat) × Nat) (h : run_server_bind freePorts = some addr) :
    addr = ((127, 0, 0, 1), 3030) ∧ 3030 ∈ freePorts := by
  rw [run_server_bind] at h
  by_cases hm : 3030 ∈ freePorts
  · rw [if_pos hm] at h
    cases h
    exact ⟨rfl, hm⟩
  · rw [if_neg hm] at h
    cases h

/-- C6 (witness): the amended theorem on the environment where only 3030
is free. -/
theorem spec_c6_run_server_fixed_port_witness :
    (((127, 0, 0, 1), 3030) : (Nat × Nat × Nat × Nat) × Nat) = ((127, 0, 0, 1), 3030) ∧
    3030 ∈ [3030] :=
  spec_c6_run_server_fixed_port [3030] ((127, 0, 0, 1), 3030) rfl

/-! ## C8 — `load_config_file` (`src/ciweimao/utils.rs` lines 61-101) -/

/-- Parse a decimal numeral (digit characters only). -/
def parseNatAux : List Char → Nat → Option Nat
  | [], acc => some acc
  | c :: rest, acc =>
    if 48 ≤ c.toNat ∧ c.toNat ≤ 57 then parseNatAux rest (acc * 10 + (c.toNat - 48))
    else none

/-- Parse a non-empty decimal numeral. -/
def parseNatStr (s : String) : Option Nat :=
  match s.data with
  | [] => none
  | l => parseNatAux l 0

/-- Split a character list at every occurrence of `sep`. -/
def splitOnChar (sep : Char) : List Char → List (List Char)
  | [] => [[]]
  | c :: rest =>
    let r := splitOnChar sep rest
    if c == sep then [] :: r
    else
      match r with
      | h :: t => (c :: h) :: t
      | [] => [[c]]

/-- Modelled from the spec: `Version::parse` of the external `semver`
crate, restricted to plain `major.minor.patch` numeric triples (the only
form this client ever writes); pre-release and build metadata are not
modelled. -/
def parseSemver (s : String) : Option (Nat × Nat × Nat) :=
  match splitOnChar '.' s.data with
  | [ma, mi, pa] =>
    match parseNatStr ⟨ma⟩, parseNatStr ⟨mi⟩, parseNatStr ⟨pa⟩ with
    | some a, some b, some c => some (a, b, c)
    | _, _, _ => none
  | _ => none

/-- Modelled from the spec: caret matching of the external `semver` crate
(`VersionReq::parse("^req").matches(v)`): same major, and no breaking
bump below the first non-zero component. -/
def caretMatches (req v : Nat × Nat × Nat) : Bool :=
  match req, v with
  | (ra, rb, rc), (va, vb, vc) =>
    va == ra &&
      (if ra ≠ 0 then (decide (rb < vb)) || (vb == rb && decide (rc ≤ vc))
       else if rb ≠ 0 then vb == rb && decide (rc ≤ vc)
       else vb == 0 && vc == rc)

/-- The on-disk state `load_config_file` can encounter: no file, a file
`confy` cannot parse, or a parsed `Config { version, account,
login_token }`. -/
inductive ConfigFileState where
  | absent
  | corrupt
  | stored (version account login_token : String)
deriving DecidableEq, Repr

/-- `CiweimaoClient::load_config_file` (`src/ciweimao/utils.rs` lines
61-101): an absent file is a fresh session `(None, None)`; a parse failure
of `confy::load_path` PROPAGATES as an error (the `?` operator); an empty
stored version is ignored; a version that does not parse propagates the
semver error; a parsed version is checked against `^0.1.0`
(`CONFIG_VERSION` = "0.1.0") and on mismatch the file is ignored. -/
def load_config_file : ConfigFileState → Except String (Option String × Option String)
  | .absent => .ok (none, none)
  | .corrupt => .error "invalid TOML data"
  | .stored v a t =>
    if v == "" then .ok (none, none)
    else
      match parseSemver v with
      | none => .error "unexpected character in semver string"
      | some ver =>
        if caretMatches (0, 1, 0) ver then .ok (some a, some t)
        else .ok (none, none)

/-- C8 (counterexample): a corrupt (unparseable) config file makes
construction FAIL with the propagated parse error instead of being
treated as absent credentials. -/
theorem spec_c8_counterexample :
    load_config_file .corrupt = .error "invalid TOML data" := rfl

/-- C8 (amended): an absent file and an empty or `^0.1.0`-incompatible
stored version yield absent credentials `(None, None)`, and a compatible
version yields the stored pair — but a corrupt config file, or one whose
version string does not parse, fails construction with an error rather
than being ignored. -/
theorem spec_c8_load_config_file :
    load_config_file .absent = .ok (none, none)
    ∧ (∀ a t, load_config_file (.stored "" a t) = .ok (none, none))
    ∧ (∀ v a t ver, v ≠ "" → parseSemver v = some ver →
        caretMatches (0, 1, 0) ver = false →
        load_config_file (.stored v a t) = .ok (none, none))
    ∧ (∀ v a t ver, v ≠ "" → parseSemver v = some ver →
        caretMatches (0, 1, 0) ver = true →
        load_config_file (.stored v a t) = .ok (some a, some t))
    ∧ (∃ e, load_config_file .corrupt = .error e)
    ∧ (∀ v a t, v ≠ "" → parseSemver v = none →
        ∃ e, load_config_file (.stored v a t) = .error e) := by
  refine ⟨rfl, fun a t => rfl, ?_, ?_, ⟨"invalid TOML data", rfl⟩, ?_⟩
  · intro v a t ver hne hparse hmatch
    have hv : (v == "") = false := by
      rw [Bool.eq_false_iff]
      intro hcontra
      exact hne (beq_iff_eq.mp hcontra)
    simp only [load_config_file, hv, Bool.false_eq_true, if_false, hparse, hmatch]
  · intro v a t ver hne hparse hmatch
    have hv : (v == "") = false := by
      rw [Bool.eq_false_iff]
      intro hcontra
      exact hne (beq_iff_eq.mp hcontra)
    simp only [load_config_file, hv, Bool.false_eq_true, if_false, hparse, hmatch, if_true]
  · intro v a t hne hparse
    have hv : (v == "") = false := by
      rw [Bool.eq_false_iff]
      intro hcontra
      exact hne (beq_iff_eq.mp hcontra)
    refine ⟨"unexpected character in semver string", ?_⟩
    simp only [load_config_file, hv, Bool.false_eq_true, if_false, hparse]

/-- C8 (witness): the amended behaviour on concrete files: version
"0.2.0" is incompatible with `^0.1.0` and is ignored; version "0.1.5" is
compatible and restores the credentials; version "abc" fails to parse. -/
theorem spec_c8_load_config_file_witness :
    load_config_file (.stored "0.2.0" "u" "tok") = .ok (none, none) ∧
    load_config_file (.stored "0.1.5" "u" "tok") = .ok (some "u", some "tok") ∧
    (∃ e, load_config_file (.stored "abc" "u" "tok") = .error e) :=
  ⟨spec_c8_load_config_file.2.2.1 "0.2.0" "u" "tok" (0, 2, 0) (by decide) rfl (by decide),
   spec_c8_load_config_file.2.2.2.1 "0.1.5" "u" "tok" (0, 1, 5) (by decide) rfl (by decide),
   spec_c8_load_config_file.2.2.2.2.2 "abc" "u" "tok" (by decide) rfl⟩

/-! ## C9 — the shutdown/destructor hooks -/

/-- Observable outcome of a destructor run: nothing, a tracing log line
(`info!`/`error!`), or a Rust panic. -/
inductive DropOutcome where
  | quiet
  | logged (msg : String)
  | panicked (msg : String)
deriving DecidableEq, Repr

/-- Whether the outcome is a panic. -/
def DropOutcome.isPanic : DropOutcome → Bool
  | .panicked _ => true
  | _ => false

/-- `impl Drop for HTTPClient` (`src/common/net.rs` lines 260-266):
`if let Err(error) = self.shutdown() { error!("Fail to save cookie:
{error}") }` — the cookie-jar flush's error is only logged.  The input is
the outcome of `shutdown()` (file creation plus JSON serialisation). -/
def http_client_drop (shutdownResult : Except String Unit) : DropOutcome :=
  match shutdownResult with
  | .ok () => .quiet
  | .error e => .logged ("Fail to save cookie: " ++ e)

/-- `impl Drop for CiweimaoClient` (`src/ciweimao/utils.rs` lines
235-255): with both credentials present, the config-directory lookup is
unwrapped with `expect("Failed to obtain configuration file path")` and
the `confy::store_path` result with `expect("Configuration file save
failed")` — either failure PANICS; otherwise only `info!` logs happen.
Inputs are the credential slots and the outcomes of the two fallible
calls. -/
def ciweimao_client_drop (account login_token : Option String)
    (dirResult : Except String String) (storeResult : Except String Unit) : DropOutcome :=
  if account.isSome && login_token.isSome then
    match dirResult with
    | .error _ => .panicked "Failed to obtain configuration file path"
    | .ok path =>
      match storeResult with
      | .error _ => .panicked "Configuration file save failed"
      | .ok () => .logged ("Save the config file at: " ++ path)
  else .logged "No data can be saved to the configuration file"

/-- C9: the cookie-jar flush on `HTTPClient` drop never panics, for every
outcome of the underlying file-system and serialisation work — but the
credential persistence on `CiweimaoClient` drop panics (via `expect`)
whenever the config-directory lookup or the config store fails while
credentials are present, contradicting the claim; it stays panic-free
exactly when both steps succeed or credentials are absent. -/
theorem spec_c9_drop_hooks_panic_behaviour :
    (∀ r : Except String Unit, (http_client_drop r).isPanic = false)
    ∧ (ciweimao_client_drop (some "user") (some "tok") (.ok "cfg/config.toml")
        (.error "disk full")) = .panicked "Configuration file save failed"
    ∧ (ciweimao_client_drop (some "user") (some "tok") (.error "no config dir")
        (.ok ())) = .panicked "Failed to obtain configuration file path"
    ∧ (∀ (t : Option String) (d : Except String String) (s : Except String Unit),
        (ciweimao_client_drop none t d s).isPanic = false)
    ∧ (∀ (a b p : String),
        ciweimao_client_drop (some a) (some b) (.ok p) (.ok ()) =
          .logged ("Save the config file at: " ++ p)) := by
  refine ⟨?_, rfl, rfl, ?_, fun a b p => rfl⟩
  · intro r
    cases r with
    | ok u => cases u; rfl
    | error e => rfl
  · intro t d s
    rfl

/-! ## C10 — the cache's implicit UTF-8 invariant -/

/-- Cache states reachable through the write path: the empty table
extended by successful `insert_text` / `update_text` calls. -/
inductive ReachableDB : NovelDB → Prop where
  | empty : ReachableDB []
  | insert (db : NovelDB) (info : ChapterInfo) (text : String) (db2 : NovelDB) :
      ReachableDB db → NovelDB.insert_text db info text = .ok db2 → ReachableDB db2
  | update (db : NovelDB) (info : ChapterInfo) (text : String) (db2 : NovelDB) :
      ReachableDB db → NovelDB.update_text db info text = .ok db2 → ReachableDB db2

/-- C10: every blob the write path stores is the Zstd compression of the
UTF-8 bytes of some string (both writers only accept string input), and
`find_text` relies on this: it performs no UTF-8 validation, so on a row
holding the non-UTF-8 blob `[0xFF]` — a blob no `insert_text`/
`update_text` call can produce — it still answers a successful Hit whose
body is the unchecked-conversion garbage (here the replacement character)
rather than an error. -/
theorem spec_c10_find_text_utf8_unchecked :
    (∀ db : NovelDB, ReachableDB db →
      ∀ row ∈ db, ∃ s : String, row.text = zstd_compress (utf8Encode s))
    ∧ (∀ s : String, utf8Encode s ≠ [255])
    ∧ (∀ s : String, zstd_compress [255] ≠ zstd_compress (utf8Encode s))
    ∧ NovelDB.find_text [⟨"7", none, zstd_compress [255]⟩] (chapterAt (.Id 7) none) =
        .ok (.Ok ⟨[Char.ofNat 65533]⟩) := by
  have henc : ∀ s : String, utf8Encode s ≠ [255] := by
    intro s h
    obtain ⟨data⟩ := s
    cases data with
    | nil => cases h
    | cons c cs =>
      rw [utf8Encode] at h
      simp only [List.map_cons, List.flatten_cons] at h
      by_cases hA : c.toNat < 128
      · rw [charUtf8_one hA] at h
        simp only [List.cons_append, List.cons.injEq] at h
        omega
      · by_cases hB : c.toNat < 2048
        · rw [charUtf8_two (by omega) hB] at h
          simp at h
        · by_cases hC : c.toNat < 65536
          · rw [charUtf8_three (by omega) hC] at h
            simp at h
          · rw [charUtf8_four (by omega)] at h
            simp at h
  refine ⟨?_, henc, ?_, rfl⟩
  · intro db hreach
    induction hreach with
    | empty => intro row hrow; cases hrow
    | insert db info text db2 hprev hins ih =>
      obtain ⟨-, hdb2⟩ := insert_text_ok hins
      intro row hrow
      rw [hdb2] at hrow
      rcases List.mem_append.mp hrow with hmem | hmem
      · exact ih row hmem
      · rw [List.mem_singleton] at hmem
        exact ⟨text, by rw [hmem]⟩
    | update db info text db2 hprev hupd ih =>
      obtain ⟨-, hdb2⟩ := update_text_ok hupd
      intro row hrow
      rw [hdb2] at hrow
      obtain ⟨orig, horigmem, horow⟩ := List.mem_map.mp hrow
      by_cases hid : (orig.identifier == info.identifier.toString) = true
      · rw [if_pos hid] at horow
        exact ⟨text, by rw [← horow]⟩
      · rw [if_neg hid] at horow
        obtain ⟨s, hs⟩ := ih orig horigmem
        exact ⟨s, by rw [← horow, hs]⟩
  · intro s h
    exact henc s (zstd_compress_injective h).symm

/-- C10 (witness): the invariant applied to the cache reached by one
insert of body "ok" for chapter id 9 into the empty table. -/
theorem spec_c10_find_text_utf8_unchecked_witness :
    ∃ s : String,
      (⟨"9", some 0, zstd_compress (utf8Encode "ok")⟩ : TextRow).text =
        zstd_compress (utf8Encode s) :=
  spec_c10_find_text_utf8_unchecked.1
    [⟨"9", some 0, zstd_compress (utf8Encode "ok")⟩]
    (ReachableDB.insert [] (chapterAt (.Id 9) (some 0)) "ok"
      [⟨"9", some 0, zstd_compress (utf8Encode "ok")⟩] ReachableDB.empty rfl)
    ⟨"9", some 0, zstd_compress (utf8Encode "ok")⟩ (List.mem_singleton.mpr rfl)
